import Mathlib

/-!
Shallow embedding of the semaphorus crate (src/raw.rs, src/lib.rs, src/wrapper.rs).

The crate implements a bounded counting semaphore. Three variants exist in the
source tree:
- namespace `Raw` models src/raw.rs: a counter-only core (count, max) with
  `try_get`, `at_max`, `count`, and a guard whose construction does
  `fetch_add(1, SeqCst)` and whose Drop does `fetch_sub(1, SeqCst)`.
- namespace `Lib` models src/lib.rs: the data-carrying semaphore whose
  `try_get` checks `at_max(Relaxed)`, whose guard construction does
  `fetch_add(1, SeqCst)` and whose Drop does `fetch_sub(1, Relaxed)`, and whose
  `get` asserts `max != 0` before a polling loop.
- namespace `Wrapper` models src/wrapper.rs: composes a `Raw.Semaphore` with a
  value; its `get` asserts `max != 0`, polls `at_max(Relaxed)`, then calls
  `try_get().unwrap()`.

Atomic operations on the shared counter are modelled as pure state
transformers over a `Nat` count reduced mod `2 ^ 64` (the usize value space),
which additionally record a trace of the atomic events performed, each tagged
with the memory ordering the source passes. Loads return the state unchanged.
The blocking polling loop of `get` is modelled with explicit fuel counting the
loop iterations; in this sequential semantics the loop condition cannot change
while polling, so exhausting fuel (`stillPolling`) corresponds to the loop
spinning forever.
-/

/-- Size of the usize value space: the atomic counter is a 64-bit usize, so
all counter arithmetic wraps mod `2 ^ 64` (written as its numeral). -/
def USIZE : Nat := 18446744073709551616

/-- Wrapping addition on usize, as performed by `AtomicUsize::fetch_add`. -/
def usizeAdd (a b : Nat) : Nat := (a + b) % USIZE

/-- Wrapping subtraction on usize, as performed by `AtomicUsize::fetch_sub`:
the result of subtracting `b` from `a` modulo `2 ^ 64` (written in a case-split
form so that terms over open variables stay in normal form). -/
def usizeSub (a b : Nat) : Nat :=
  if b % USIZE ≤ a % USIZE then a % USIZE - b % USIZE
  else USIZE + a % USIZE - b % USIZE

/-- Rust memory orderings (`core::sync::atomic::Ordering`). -/
inductive MemOrdering where
  | relaxed
  | release
  | acquire
  | acqRel
  | seqCst
deriving DecidableEq

/-- One atomic instruction performed on the shared counter, tagged with the
memory ordering the source passes to it. -/
inductive AtomicEvent where
  | load (ordering : MemOrdering)
  | fetchAdd (operand : Nat) (ordering : MemOrdering)
  | fetchSub (operand : Nat) (ordering : MemOrdering)
deriving DecidableEq

/-- The error enum from src/lib.rs lines 14-19: a single variant `AtMax`
(src/raw.rs line 75 refers to the same unique capacity error under the
spelling `AtMaxCount`). -/
inductive SemaphoreError where
  | AtMax
deriving DecidableEq

/-- Observable outcome of a blocking `get` whose polling loop is bounded by
fuel: the `max != 0` assertion fired (`panicked`, also used for the panic of
`unwrap` on an error), the loop was still spinning when fuel ran out
(`stillPolling`), or a guard was acquired. -/
inductive GetResult (G : Type) where
  | panicked
  | stillPolling
  | acquired (g : G)
deriving DecidableEq

namespace Raw

/-- src/raw.rs lines 11-14: the counter core, an atomic count and a fixed
public max. -/
structure Semaphore where
  count : Nat
  max : Nat
deriving DecidableEq

/-- src/raw.rs lines 20-24: the guard borrows the semaphore and carries no
data of its own; its observable effect lives entirely in the counter. -/
inductive SemaphoreGuard where
  | mk
deriving DecidableEq

/-- `self.count.load(ordering)`: returns the value, the unchanged state, and
the load event. -/
def Semaphore.loadCount (s : Semaphore) (ordering : MemOrdering) :
    Nat × Semaphore × List AtomicEvent :=
  (s.count, s, [AtomicEvent.load ordering])

/-- src/raw.rs lines 50-52: `pub fn count(&self, ordering) -> usize`
(named `countOp` here because `count` is the field projection). -/
def Semaphore.countOp (s : Semaphore) (ordering : MemOrdering) :
    Nat × Semaphore × List AtomicEvent :=
  s.loadCount ordering

/-- src/raw.rs lines 55-60: `Semaphore::new(max)` starts with count 0. -/
def Semaphore.new (max : Nat) : Semaphore :=
  { max := max, count := 0 }

/-- src/raw.rs lines 63-65: `self.count.load(ordering) >= self.max`. -/
def Semaphore.at_max (s : Semaphore) (ordering : MemOrdering) :
    Bool × Semaphore × List AtomicEvent :=
  let (c, s1, t) := s.loadCount ordering
  (decide (c ≥ s1.max), s1, t)

/-- src/raw.rs lines 33-40: `SemaphoreGuard::new` performs
`fetch_add(1, SeqCst)` and returns the guard. -/
def SemaphoreGuard.new (s : Semaphore) :
    SemaphoreGuard × Semaphore × List AtomicEvent :=
  (SemaphoreGuard.mk, { s with count := usizeAdd s.count 1 },
    [AtomicEvent.fetchAdd 1 MemOrdering.seqCst])

/-- src/raw.rs lines 26-30: `Drop for SemaphoreGuard` performs
`fetch_sub(1, SeqCst)`. -/
def SemaphoreGuard.drop (s : Semaphore) : Semaphore × List AtomicEvent :=
  ({ s with count := usizeSub s.count 1 }, [AtomicEvent.fetchSub 1 MemOrdering.seqCst])

/-- src/raw.rs lines 73-79: `try_get` checks `at_max(SeqCst)`; if saturated it
returns the capacity error with no state change, otherwise it constructs a
guard via `SemaphoreGuard::new`. -/
def Semaphore.try_get (s : Semaphore) :
    Except SemaphoreError SemaphoreGuard × Semaphore × List AtomicEvent :=
  let (b, s1, t1) := s.at_max MemOrdering.seqCst
  if b then (Except.error SemaphoreError.AtMax, s1, t1)
  else
    let (g, s2, t2) := SemaphoreGuard.new s1
    (Except.ok g, s2, t1 ++ t2)

/-- Modelled from the spec: src/wrapper.rs line 54 calls `self.raw.try_lock()`,
a method of the raw core that is not defined under src (only this caller is).
Per the spec, the wrapper delegates acquisition to the core non-blocking
acquire (`try_acquire`), which in src is `Semaphore.try_get`. -/
def Semaphore.try_lock (s : Semaphore) :
    Except SemaphoreError SemaphoreGuard × Semaphore × List AtomicEvent :=
  s.try_get

end Raw

namespace Lib

/-- src/lib.rs lines 37-41: the data-carrying semaphore holds the atomic
count, the public max, and the value. -/
structure Semaphore (T : Type) where
  count : Nat
  max : Nat
  data : T
deriving DecidableEq

/-- src/lib.rs lines 118-122: the guard borrows the semaphore; its Deref
(lines 136-142) yields a shared reference to the data, modelled by the
value it dereferences to. -/
structure SemaphoreGuard (T : Type) where
  data : T
deriving DecidableEq

/-- src/lib.rs lines 139-141: `Deref for SemaphoreGuard` yields `&self.inner.data`. -/
def SemaphoreGuard.deref {T : Type} (g : SemaphoreGuard T) : T := g.data

/-- `self.count.load(ordering)`: value, unchanged state, load event. -/
def Semaphore.loadCount {T : Type} (s : Semaphore T) (ordering : MemOrdering) :
    Nat × Semaphore T × List AtomicEvent :=
  (s.count, s, [AtomicEvent.load ordering])

/-- src/lib.rs lines 50-52: `pub fn count(&self, ordering) -> usize`. -/
def Semaphore.countOp {T : Type} (s : Semaphore T) (ordering : MemOrdering) :
    Nat × Semaphore T × List AtomicEvent :=
  s.loadCount ordering

/-- src/lib.rs lines 92-103: `Semaphore::new(value, max)` starts with count 0
(the `debug_assert_ne!(max, 0)` is compiled out of release builds and does not
change the constructed value). -/
def Semaphore.new {T : Type} (value : T) (max : Nat) : Semaphore T :=
  { max := max, count := 0, data := value }

/-- src/lib.rs lines 45-47: `self.count.load(ordering) >= self.max`. -/
def Semaphore.at_max {T : Type} (s : Semaphore T) (ordering : MemOrdering) :
    Bool × Semaphore T × List AtomicEvent :=
  let (c, s1, t) := s.loadCount ordering
  (decide (c ≥ s1.max), s1, t)

/-- src/lib.rs lines 126-133: `SemaphoreGuard::new` performs
`fetch_add(1, SeqCst)` and returns the guard over the data. -/
def SemaphoreGuard.new {T : Type} (s : Semaphore T) :
    SemaphoreGuard T × Semaphore T × List AtomicEvent :=
  (⟨s.data⟩, { s with count := usizeAdd s.count 1 },
    [AtomicEvent.fetchAdd 1 MemOrdering.seqCst])

/-- src/lib.rs lines 149-154: `Drop for SemaphoreGuard` performs
`fetch_sub(1, Relaxed)`. -/
def SemaphoreGuard.drop {T : Type} (s : Semaphore T) : Semaphore T × List AtomicEvent :=
  ({ s with count := usizeSub s.count 1 }, [AtomicEvent.fetchSub 1 MemOrdering.relaxed])

/-- src/lib.rs lines 76-82: `try_get` checks `at_max(Relaxed)`; if saturated it
returns `SemaphoreError::AtMax` with no state change, otherwise it constructs
a guard via `SemaphoreGuard::new`. -/
def Semaphore.try_get {T : Type} (s : Semaphore T) :
    Except SemaphoreError (SemaphoreGuard T) × Semaphore T × List AtomicEvent :=
  let (b, s1, t1) := s.at_max MemOrdering.relaxed
  if b then (Except.error SemaphoreError.AtMax, s1, t1)
  else
    let (g, s2, t2) := SemaphoreGuard.new s1
    (Except.ok g, s2, t1 ++ t2)

/-- src/lib.rs lines 62-68: the polling loop of `get`, `while at_max(Relaxed)
sleep`, followed by `SemaphoreGuard::new(self)`. Fuel bounds the number of
loop iterations modelled. -/
def Semaphore.getLoop {T : Type} (s : Semaphore T) :
    Nat → GetResult (SemaphoreGuard T) × Semaphore T × List AtomicEvent
  | 0 =>
    let (b, s1, t1) := s.at_max MemOrdering.relaxed
    if b then (GetResult.stillPolling, s1, t1)
    else
      let (g, s2, t2) := SemaphoreGuard.new s1
      (GetResult.acquired g, s2, t1 ++ t2)
  | fuel + 1 =>
    let (b, s1, t1) := s.at_max MemOrdering.relaxed
    if b then
      let (r, s2, t2) := s1.getLoop fuel
      (r, s2, t1 ++ t2)
    else
      let (g, s2, t2) := SemaphoreGuard.new s1
      (GetResult.acquired g, s2, t1 ++ t2)

/-- src/lib.rs lines 57-69: `get` first runs `assert_ne!(self.max, 0, ...)`,
which panics before any atomic operation when max is 0; only then does it
enter the polling loop. -/
def Semaphore.get {T : Type} (s : Semaphore T) (fuel : Nat) :
    GetResult (SemaphoreGuard T) × Semaphore T × List AtomicEvent :=
  if s.max = 0 then (GetResult.panicked, s, [])
  else s.getLoop fuel

end Lib

namespace Wrapper

/-- src/wrapper.rs lines 12-15: the wrapper composes a raw core with a value. -/
structure Semaphore (T : Type) where
  raw : Raw.Semaphore
  data : T
deriving DecidableEq

/-- src/wrapper.rs lines 91-94: the wrapper guard pairs the raw guard with a
borrowed reference to the data, modelled by the value it dereferences to. -/
structure SemaphoreGuard (T : Type) where
  _inner : Raw.SemaphoreGuard
  data : T
deriving DecidableEq

/-- src/wrapper.rs lines 106-112: `Deref for SemaphoreGuard` yields `self.data`. -/
def SemaphoreGuard.deref {T : Type} (g : SemaphoreGuard T) : T := g.data

/-- src/wrapper.rs lines 66-76: `Semaphore::new(value, max)` wraps the value
with a fresh raw core (the `debug_assert_ne!` does not change the value). -/
def Semaphore.new {T : Type} (value : T) (max : Nat) : Semaphore T :=
  { raw := Raw.Semaphore.new max, data := value }

/-- src/wrapper.rs lines 20-22: delegates to the raw core. -/
def Semaphore.at_max {T : Type} (s : Semaphore T) (ordering : MemOrdering) :
    Bool × Semaphore T × List AtomicEvent :=
  let (b, r1, t) := s.raw.at_max ordering
  (b, { s with raw := r1 }, t)

/-- src/wrapper.rs lines 26-28: delegates to the raw core. -/
def Semaphore.countOp {T : Type} (s : Semaphore T) (ordering : MemOrdering) :
    Nat × Semaphore T × List AtomicEvent :=
  let (c, r1, t) := s.raw.countOp ordering
  (c, { s with raw := r1 }, t)

/-- src/wrapper.rs lines 53-55:
`Ok(SemaphoreGuard::new(self.raw.try_lock()?, &self.data))` — an error from
the raw acquisition is propagated unchanged by `?`, a raw guard is paired
with the data reference. -/
def Semaphore.try_get {T : Type} (s : Semaphore T) :
    Except SemaphoreError (SemaphoreGuard T) × Semaphore T × List AtomicEvent :=
  match s.raw.try_lock with
  | (Except.error e, r1, t) => (Except.error e, { s with raw := r1 }, t)
  | (Except.ok g, r1, t) => (Except.ok { _inner := g, data := s.data }, { s with raw := r1 }, t)

/-- src/wrapper.rs lines 87-104: dropping the wrapper guard drops its raw
guard field, hence performs the raw Drop decrement. -/
def SemaphoreGuard.drop {T : Type} (s : Semaphore T) : Semaphore T × List AtomicEvent :=
  let (r1, t) := Raw.SemaphoreGuard.drop s.raw
  ({ s with raw := r1 }, t)

/-- src/wrapper.rs line 44: `self.try_get().unwrap()` after the polling loop;
`unwrap` panics if the acquisition fails. -/
def Semaphore.getFinish {T : Type} (s : Semaphore T) (acc : List AtomicEvent) :
    GetResult (SemaphoreGuard T) × Semaphore T × List AtomicEvent :=
  match s.try_get with
  | (Except.ok g, s2, t2) => (GetResult.acquired g, s2, acc ++ t2)
  | (Except.error _, s2, t2) => (GetResult.panicked, s2, acc ++ t2)

/-- src/wrapper.rs lines 38-44: the polling loop of `get`, `while
at_max(Relaxed) sleep`, followed by `try_get().unwrap()`. Fuel bounds the
number of loop iterations modelled. -/
def Semaphore.getLoop {T : Type} (s : Semaphore T) :
    Nat → GetResult (SemaphoreGuard T) × Semaphore T × List AtomicEvent
  | 0 =>
    let (b, s1, t1) := s.at_max MemOrdering.relaxed
    if b then (GetResult.stillPolling, s1, t1)
    else s1.getFinish t1
  | fuel + 1 =>
    let (b, s1, t1) := s.at_max MemOrdering.relaxed
    if b then
      let (r, s2, t2) := s1.getLoop fuel
      (r, s2, t1 ++ t2)
    else s1.getFinish t1

/-- src/wrapper.rs lines 33-45: `get` first runs `assert_ne!(self.raw.max, 0,
...)`, which panics before any atomic operation when max is 0; only then does
it enter the polling loop. -/
def Semaphore.get {T : Type} (s : Semaphore T) (fuel : Nat) :
    GetResult (SemaphoreGuard T) × Semaphore T × List AtomicEvent :=
  if s.raw.max = 0 then (GetResult.panicked, s, [])
  else s.getLoop fuel

end Wrapper

/-- Sequential operational semantics of the raw core: the states reachable
from a fresh core of some capacity by successful `try_get` calls and by drops
of live guards, tracking the number of live (acquired, not yet dropped)
guards. The capacity is a usize, hence below `USIZE`. -/
inductive Reachable : Raw.Semaphore → Nat → Prop where
  | init (max : Nat) : max < USIZE → Reachable (Raw.Semaphore.new max) 0
  | acquire {s : Raw.Semaphore} {g : Nat} : Reachable s g →
      (s.try_get).1 = Except.ok Raw.SemaphoreGuard.mk →
      Reachable (s.try_get).2.1 (g + 1)
  | release {s : Raw.Semaphore} {g : Nat} : Reachable s g → 1 ≤ g →
      Reachable (Raw.SemaphoreGuard.drop s).1 (g - 1)

/-- The concrete saturation scenario from the spec and the raw.rs test: a
fresh raw core of capacity 4 (states threaded through try_get and drop). -/
def fourCore : Raw.Semaphore := Raw.Semaphore.new 4

/-- First acquire of the capacity-4 scenario. -/
def fourStep1 : Except SemaphoreError Raw.SemaphoreGuard × Raw.Semaphore × List AtomicEvent :=
  fourCore.try_get

/-- Second acquire of the capacity-4 scenario. -/
def fourStep2 : Except SemaphoreError Raw.SemaphoreGuard × Raw.Semaphore × List AtomicEvent :=
  fourStep1.2.1.try_get

/-- Third acquire of the capacity-4 scenario. -/
def fourStep3 : Except SemaphoreError Raw.SemaphoreGuard × Raw.Semaphore × List AtomicEvent :=
  fourStep2.2.1.try_get

/-- Fourth acquire of the capacity-4 scenario. -/
def fourStep4 : Except SemaphoreError Raw.SemaphoreGuard × Raw.Semaphore × List AtomicEvent :=
  fourStep3.2.1.try_get

/-- Fifth acquire attempt of the capacity-4 scenario, at capacity. -/
def fourStep5 : Except SemaphoreError Raw.SemaphoreGuard × Raw.Semaphore × List AtomicEvent :=
  fourStep4.2.1.try_get

/-- Sixth acquire of the capacity-4 scenario, after dropping one guard. -/
def fourStep6 : Except SemaphoreError Raw.SemaphoreGuard × Raw.Semaphore × List AtomicEvent :=
  (Raw.SemaphoreGuard.drop fourStep5.2.1).1.try_get

theorem USIZE_eq_pow : USIZE = 2 ^ 64 := by norm_num [USIZE]

theorem usizeAdd_one_eq {a : Nat} (h : a + 1 < USIZE) : usizeAdd a 1 = a + 1 :=
  Nat.mod_eq_of_lt h

theorem usizeSub_one_eq {a : Nat} (h1 : 1 ≤ a) (h2 : a < USIZE) :
    usizeSub a 1 = a - 1 := by
  have h1m : (1 : Nat) % USIZE = 1 := Nat.mod_eq_of_lt (by unfold USIZE; omega)
  have ham : a % USIZE = a := Nat.mod_eq_of_lt h2
  unfold usizeSub
  rw [h1m, ham, if_pos h1]

theorem usizeSub_zero_one : usizeSub 0 1 = USIZE - 1 := by
  norm_num [usizeSub, USIZE]

theorem rawGuard_drop_eq (s : Raw.Semaphore) :
    Raw.SemaphoreGuard.drop s =
      ({ count := usizeSub s.count 1, max := s.max },
        [AtomicEvent.fetchSub 1 MemOrdering.seqCst]) :=
  rfl

theorem libGuard_drop_eq {T : Type} (s : Lib.Semaphore T) :
    Lib.SemaphoreGuard.drop s =
      ({ count := usizeSub s.count 1, max := s.max, data := s.data },
        [AtomicEvent.fetchSub 1 MemOrdering.relaxed]) :=
  rfl

theorem raw_try_get_eq (s : Raw.Semaphore) :
    s.try_get = if s.max ≤ s.count
      then (Except.error SemaphoreError.AtMax, s, [AtomicEvent.load MemOrdering.seqCst])
      else (Except.ok Raw.SemaphoreGuard.mk,
        { count := usizeAdd s.count 1, max := s.max },
        [AtomicEvent.load MemOrdering.seqCst, AtomicEvent.fetchAdd 1 MemOrdering.seqCst]) := by
  by_cases h : s.max ≤ s.count <;>
    simp [Raw.Semaphore.try_get, Raw.Semaphore.at_max, Raw.Semaphore.loadCount,
      Raw.SemaphoreGuard.new, h, ge_iff_le]

theorem lib_try_get_eq {T : Type} (s : Lib.Semaphore T) :
    s.try_get = if s.max ≤ s.count
      then (Except.error SemaphoreError.AtMax, s, [AtomicEvent.load MemOrdering.relaxed])
      else (Except.ok ⟨s.data⟩,
        { count := usizeAdd s.count 1, max := s.max, data := s.data },
        [AtomicEvent.load MemOrdering.relaxed, AtomicEvent.fetchAdd 1 MemOrdering.seqCst]) := by
  by_cases h : s.max ≤ s.count <;>
    simp [Lib.Semaphore.try_get, Lib.Semaphore.at_max, Lib.Semaphore.loadCount,
      Lib.SemaphoreGuard.new, h, ge_iff_le]

theorem reachable_spec {s : Raw.Semaphore} {g : Nat} (h : Reachable s g) :
    s.count = g ∧ g ≤ s.max ∧ s.max < USIZE := by
  induction h with
  | init max hm => exact ⟨rfl, Nat.zero_le _, hm⟩
  | @acquire s g hr hok ih =>
    obtain ⟨hc, hg, hm⟩ := ih
    by_cases hle : s.max ≤ s.count
    · rw [raw_try_get_eq, if_pos hle] at hok
      simp at hok
    · have hlt : s.count < s.max := Nat.lt_of_not_le hle
      have hadd : usizeAdd s.count 1 = s.count + 1 :=
        usizeAdd_one_eq (Nat.lt_of_le_of_lt (Nat.succ_le_of_lt hlt) hm)
      rw [raw_try_get_eq, if_neg hle]
      refine ⟨?_, ?_, ?_⟩
      · show usizeAdd s.count 1 = g + 1
        rw [hadd, hc]
      · show g + 1 ≤ s.max
        omega
      · exact hm
  | @release s g hr hg1 ih =>
    obtain ⟨hc, hg, hm⟩ := ih
    have hc1 : 1 ≤ s.count := hc ▸ hg1
    have hcU : s.count < USIZE :=
      Nat.lt_of_le_of_lt (Nat.le_trans (Nat.le_of_eq hc) hg) hm
    rw [rawGuard_drop_eq]
    refine ⟨?_, ?_, ?_⟩
    · show usizeSub s.count 1 = g - 1
      rw [usizeSub_one_eq hc1 hcU, hc]
    · show g - 1 ≤ s.max
      omega
    · show s.max < USIZE
      exact hm

theorem lib_getLoop_stillPolling {T : Type} (s : Lib.Semaphore T) (hs : s.max = 0) :
    ∀ fuel : Nat, (s.getLoop fuel).1 = GetResult.stillPolling := by
  intro fuel
  induction fuel with
  | zero =>
    simp [Lib.Semaphore.getLoop, Lib.Semaphore.at_max, Lib.Semaphore.loadCount, hs]
  | succ n ih =>
    rcases h2 : s.getLoop n with ⟨r, s2, t2⟩
    rw [h2] at ih
    simp [Lib.Semaphore.getLoop, Lib.Semaphore.at_max, Lib.Semaphore.loadCount, hs, h2]
    exact ih

theorem wrapper_getLoop_stillPolling {T : Type} (w : Wrapper.Semaphore T)
    (hw : w.raw.max = 0) :
    ∀ fuel : Nat, (w.getLoop fuel).1 = GetResult.stillPolling := by
  intro fuel
  induction fuel with
  | zero =>
    simp [Wrapper.Semaphore.getLoop, Wrapper.Semaphore.at_max, Raw.Semaphore.at_max,
      Raw.Semaphore.loadCount, hw]
  | succ n ih =>
    rcases h2 : w.getLoop n with ⟨r, s2, t2⟩
    rw [h2] at ih
    simp [Wrapper.Semaphore.getLoop, Wrapper.Semaphore.at_max, Raw.Semaphore.at_max,
      Raw.Semaphore.loadCount, hw, h2]
    exact ih

/-- C1: for every sequence of operations on a raw core of capacity max,
starting from a fresh core and consisting of successful try-acquires and
releases of previously acquired, not-yet-released guards, the count stays in
the range 0 <= count <= max after every step. -/
theorem C1_counter_invariant {s : Raw.Semaphore} {g : Nat} (h : Reachable s g) :
    0 ≤ s.count ∧ s.count ≤ s.max := by
  obtain ⟨hc, hg, _⟩ := reachable_spec h
  exact ⟨Nat.zero_le _, by omega⟩

theorem C1_counter_invariant_witness :
    0 ≤ ((Raw.Semaphore.new 2).try_get).2.1.count ∧
      ((Raw.Semaphore.new 2).try_get).2.1.count ≤ ((Raw.Semaphore.new 2).try_get).2.1.max :=
  C1_counter_invariant (Reachable.acquire (Reachable.init 2 (by decide)) rfl)

/-- C2: on a fresh raw core of capacity 4, four successive non-blocking
acquires all succeed; a fifth fails with the at-capacity error; after
releasing one of the first four guards, a sixth acquire succeeds. -/
theorem C2_capacity_four_scenario :
    fourStep1.1 = Except.ok Raw.SemaphoreGuard.mk ∧
    fourStep2.1 = Except.ok Raw.SemaphoreGuard.mk ∧
    fourStep3.1 = Except.ok Raw.SemaphoreGuard.mk ∧
    fourStep4.1 = Except.ok Raw.SemaphoreGuard.mk ∧
    fourStep5.1 = Except.error SemaphoreError.AtMax ∧
    fourStep6.1 = Except.ok Raw.SemaphoreGuard.mk :=
  ⟨rfl, rfl, rfl, rfl, rfl, rfl⟩

/-- C3: the raw non-blocking acquire returns the at-capacity error exactly
when count >= max at check time, and then performs no state change; otherwise
it increments the count by exactly one and returns a guard bound to the core;
the error enum has the single capacity-exceeded variant as its only value. -/
theorem C3_try_get_error_exactness (s : Raw.Semaphore) (hm : s.max < USIZE) :
    ((s.try_get).1 = Except.error SemaphoreError.AtMax ↔ s.max ≤ s.count) ∧
    (s.max ≤ s.count → (s.try_get).2.1 = s) ∧
    (s.count < s.max →
      (s.try_get).1 = Except.ok Raw.SemaphoreGuard.mk ∧
      (s.try_get).2.1.count = s.count + 1 ∧
      (s.try_get).2.1.max = s.max) ∧
    (∀ e : SemaphoreError, e = SemaphoreError.AtMax) := by
  by_cases hle : s.max ≤ s.count
  · rw [raw_try_get_eq, if_pos hle]
    refine ⟨⟨fun _ => hle, fun _ => rfl⟩, fun _ => rfl, fun hlt => absurd hle (by omega), ?_⟩
    intro e
    cases e
    rfl
  · have hlt : s.count < s.max := Nat.lt_of_not_le hle
    have hadd : usizeAdd s.count 1 = s.count + 1 :=
      usizeAdd_one_eq (by omega)
    rw [raw_try_get_eq, if_neg hle]
    refine ⟨⟨fun h => by simp at h, fun h => absurd h hle⟩,
      fun h => absurd h hle, fun _ => ⟨rfl, ?_, rfl⟩, ?_⟩
    · show usizeAdd s.count 1 = s.count + 1
      exact hadd
    · intro e
      cases e
      rfl

theorem C3_try_get_error_exactness_witness :
    (Raw.Semaphore.new 4).max < USIZE ∧
      ((((Raw.Semaphore.new 4).try_get).1 = Except.error SemaphoreError.AtMax ↔
          (Raw.Semaphore.new 4).max ≤ (Raw.Semaphore.new 4).count) ∧
        ((Raw.Semaphore.new 4).max ≤ (Raw.Semaphore.new 4).count →
          ((Raw.Semaphore.new 4).try_get).2.1 = Raw.Semaphore.new 4) ∧
        ((Raw.Semaphore.new 4).count < (Raw.Semaphore.new 4).max →
          ((Raw.Semaphore.new 4).try_get).1 = Except.ok Raw.SemaphoreGuard.mk ∧
          ((Raw.Semaphore.new 4).try_get).2.1.count = (Raw.Semaphore.new 4).count + 1 ∧
          ((Raw.Semaphore.new 4).try_get).2.1.max = (Raw.Semaphore.new 4).max) ∧
        (∀ e : SemaphoreError, e = SemaphoreError.AtMax)) :=
  ⟨by decide, C3_try_get_error_exactness (Raw.Semaphore.new 4) (by decide)⟩

/-- C4: a guard constructed by a successful acquire decrements the count
exactly once upon its destruction; acquiring and then dropping the guard with
no intervening operations restores the count to its pre-acquisition value. -/
theorem C4_acquire_release_pairing (s : Raw.Semaphore) (hm : s.max < USIZE)
    (hok : s.count < s.max) :
    ((s.try_get).2.1).count = s.count + 1 ∧
    (Raw.SemaphoreGuard.drop (s.try_get).2.1).1.count = s.count ∧
    (∀ s2 : Raw.Semaphore, 1 ≤ s2.count → s2.count < USIZE →
      (Raw.SemaphoreGuard.drop s2).1.count = s2.count - 1) := by
  have hadd : usizeAdd s.count 1 = s.count + 1 := usizeAdd_one_eq (by omega)
  have hsub : ∀ s2 : Raw.Semaphore, 1 ≤ s2.count → s2.count < USIZE →
      (Raw.SemaphoreGuard.drop s2).1.count = s2.count - 1 := by
    intro s2 h1 h2
    rw [rawGuard_drop_eq]
    show usizeSub s2.count 1 = s2.count - 1
    exact usizeSub_one_eq h1 h2
  refine ⟨?_, ?_, hsub⟩
  · rw [raw_try_get_eq, if_neg (by omega)]
    show usizeAdd s.count 1 = s.count + 1
    exact hadd
  · rw [raw_try_get_eq, if_neg (by omega)]
    have h1 : 1 ≤ usizeAdd s.count 1 := by rw [hadd]; omega
    have h2 : usizeAdd s.count 1 < USIZE := by rw [hadd]; omega
    calc (Raw.SemaphoreGuard.drop
            { count := usizeAdd s.count 1, max := s.max : Raw.Semaphore }).1.count
        = usizeAdd s.count 1 - 1 := hsub _ h1 h2
      _ = s.count := by rw [hadd]; omega

theorem C4_acquire_release_pairing_witness :
    ((Raw.Semaphore.new 4).max < USIZE ∧
      (Raw.Semaphore.new 4).count < (Raw.Semaphore.new 4).max) ∧
    ((((Raw.Semaphore.new 4).try_get).2.1).count = (Raw.Semaphore.new 4).count + 1 ∧
      (Raw.SemaphoreGuard.drop ((Raw.Semaphore.new 4).try_get).2.1).1.count
        = (Raw.Semaphore.new 4).count ∧
      (∀ s2 : Raw.Semaphore, 1 ≤ s2.count → s2.count < USIZE →
        (Raw.SemaphoreGuard.drop s2).1.count = s2.count - 1)) :=
  ⟨⟨by decide, by decide⟩,
    C4_acquire_release_pairing (Raw.Semaphore.new 4) (by decide) (by decide)⟩

/-- C5: calling the blocking acquire `get` on a data-carrying semaphore whose
capacity is 0 deterministically panics on the `assert_ne` immediately, before
any polling (the atomic-event trace of the call is empty), rather than looping
forever (without the assertion, the polling loop would never exit: it reports
stillPolling for every fuel bound). Holds for both the lib.rs semaphore and
the wrapper.rs semaphore. -/
theorem C5_get_zero_capacity_panics {T : Type} (fuel : Nat)
    (s : Lib.Semaphore T) (w : Wrapper.Semaphore T)
    (hs : s.max = 0) (hw : w.raw.max = 0) :
    s.get fuel = (GetResult.panicked, s, []) ∧
    (s.getLoop fuel).1 = GetResult.stillPolling ∧
    w.get fuel = (GetResult.panicked, w, []) ∧
    (w.getLoop fuel).1 = GetResult.stillPolling := by
  refine ⟨?_, lib_getLoop_stillPolling s hs fuel, ?_, wrapper_getLoop_stillPolling w hw fuel⟩
  · unfold Lib.Semaphore.get
    rw [if_pos hs]
  · unfold Wrapper.Semaphore.get
    rw [if_pos hw]

theorem C5_get_zero_capacity_panics_witness :
    (Lib.Semaphore.new (42 : Nat) 0).max = 0 ∧
    (Wrapper.Semaphore.new (42 : Nat) 0).raw.max = 0 ∧
    ((Lib.Semaphore.new (42 : Nat) 0).get 3
        = (GetResult.panicked, Lib.Semaphore.new (42 : Nat) 0, []) ∧
      ((Lib.Semaphore.new (42 : Nat) 0).getLoop 3).1 = GetResult.stillPolling ∧
      (Wrapper.Semaphore.new (42 : Nat) 0).get 3
        = (GetResult.panicked, Wrapper.Semaphore.new (42 : Nat) 0, []) ∧
      ((Wrapper.Semaphore.new (42 : Nat) 0).getLoop 3).1 = GetResult.stillPolling) :=
  ⟨rfl, rfl,
    C5_get_zero_capacity_panics 3 (Lib.Semaphore.new (42 : Nat) 0)
      (Wrapper.Semaphore.new (42 : Nat) 0) rfl rfl⟩

/-- C6, counterexample: the claim says the raw non-blocking acquire checks
saturation with a relaxed load and the guard release decrements with relaxed
ordering; in src/raw.rs both the check load (line 74) and the Drop decrement
(line 28) use SeqCst, as the trace of a fresh capacity-1 core shows. -/
theorem C6_orderings_as_claimed_false :
    ((Raw.Semaphore.new 1).try_get).2.2 =
      [AtomicEvent.load MemOrdering.seqCst, AtomicEvent.fetchAdd 1 MemOrdering.seqCst] ∧
    (Raw.SemaphoreGuard.drop (Raw.Semaphore.new 1)).2 =
      [AtomicEvent.fetchSub 1 MemOrdering.seqCst] ∧
    MemOrdering.seqCst ≠ MemOrdering.relaxed := by
  exact ⟨rfl, rfl, by decide⟩

/-- C6, amended: in src/raw.rs the non-blocking acquire checks saturation with
a SeqCst load and increments with SeqCst, and the guard release decrements
with SeqCst; the claimed combination (relaxed check load, SeqCst increment,
relaxed release decrement) is instead what the lib.rs semaphore performs. -/
theorem C6_orderings_amended (s : Raw.Semaphore) {T : Type} (s2 : Lib.Semaphore T) :
    (s.try_get).2.2 = (if s.max ≤ s.count then [AtomicEvent.load MemOrdering.seqCst]
      else [AtomicEvent.load MemOrdering.seqCst, AtomicEvent.fetchAdd 1 MemOrdering.seqCst]) ∧
    (Raw.SemaphoreGuard.drop s).2 = [AtomicEvent.fetchSub 1 MemOrdering.seqCst] ∧
    (s2.try_get).2.2 = (if s2.max ≤ s2.count then [AtomicEvent.load MemOrdering.relaxed]
      else [AtomicEvent.load MemOrdering.relaxed, AtomicEvent.fetchAdd 1 MemOrdering.seqCst]) ∧
    (Lib.SemaphoreGuard.drop s2).2 = [AtomicEvent.fetchSub 1 MemOrdering.relaxed] := by
  refine ⟨?_, ?_, ?_, ?_⟩
  · rw [raw_try_get_eq]
    split <;> rfl
  · rw [rawGuard_drop_eq]
  · rw [lib_try_get_eq]
    split <;> rfl
  · rw [libGuard_drop_eq]

/-- C7: a raw core constructed with max = 0 is permanently saturated: in every
reachable state, at_max returns true for every ordering, and every
non-blocking acquire fails with the at-capacity error. -/
theorem C7_zero_capacity_saturated {s : Raw.Semaphore} {g : Nat}
    (h : Reachable s g) (hm : s.max = 0) (ordering : MemOrdering) :
    (s.at_max ordering).1 = true ∧
    (s.try_get).1 = Except.error SemaphoreError.AtMax := by
  have hle : s.max ≤ s.count := by omega
  constructor
  · show decide (s.count ≥ s.max) = true
    simp [hle]
  · rw [raw_try_get_eq, if_pos hle]

theorem C7_zero_capacity_saturated_witness :
    ((Raw.Semaphore.new 0).at_max MemOrdering.relaxed).1 = true ∧
    ((Raw.Semaphore.new 0).try_get).1 = Except.error SemaphoreError.AtMax :=
  C7_zero_capacity_saturated (Reachable.init 0 (by decide)) rfl MemOrdering.relaxed

/-- C8: the wrapper try_get delegates acquisition to the raw core; on success
it returns a combined guard pairing the raw guard with the stored value, and
dereferencing that guard yields exactly the stored value; on failure it
propagates the at-capacity error unchanged and leaves the state unchanged;
its atomic-event trace is exactly that of the raw acquisition (no waiting). -/
theorem C8_wrapper_try_get_delegates {T : Type} (s : Wrapper.Semaphore T) :
    (∀ e : SemaphoreError, (s.raw.try_lock).1 = Except.error e →
      (s.try_get).1 = Except.error e ∧ (s.try_get).2.1 = s) ∧
    (∀ g : Raw.SemaphoreGuard, (s.raw.try_lock).1 = Except.ok g →
      (s.try_get).1 = Except.ok { _inner := g, data := s.data } ∧
      Wrapper.SemaphoreGuard.deref { _inner := g, data := s.data } = s.data) ∧
    (s.try_get).2.1.raw = (s.raw.try_lock).2.1 ∧
    (s.try_get).2.1.data = s.data ∧
    (s.try_get).2.2 = (s.raw.try_lock).2.2 := by
  by_cases hle : s.raw.max ≤ s.raw.count
  · have hraw : s.raw.try_lock
        = (Except.error SemaphoreError.AtMax, s.raw,
            [AtomicEvent.load MemOrdering.seqCst]) := by
      show s.raw.try_get = _
      rw [raw_try_get_eq, if_pos hle]
    have htry : s.try_get
        = (Except.error SemaphoreError.AtMax, { raw := s.raw, data := s.data },
            [AtomicEvent.load MemOrdering.seqCst]) := by
      unfold Wrapper.Semaphore.try_get
      rw [hraw]
    refine ⟨?_, ?_, ?_, ?_, ?_⟩
    · intro e _
      cases e
      rw [htry]
      exact ⟨rfl, rfl⟩
    · intro g hg
      rw [hraw] at hg
      simp at hg
    · rw [htry, hraw]
    · rw [htry]
    · rw [htry, hraw]
  · have hraw : s.raw.try_lock
        = (Except.ok Raw.SemaphoreGuard.mk,
            { count := usizeAdd s.raw.count 1, max := s.raw.max },
            [AtomicEvent.load MemOrdering.seqCst,
              AtomicEvent.fetchAdd 1 MemOrdering.seqCst]) := by
      show s.raw.try_get = _
      rw [raw_try_get_eq, if_neg hle]
    have htry : s.try_get
        = (Except.ok { _inner := Raw.SemaphoreGuard.mk, data := s.data },
            { raw := { count := usizeAdd s.raw.count 1, max := s.raw.max },
              data := s.data },
            [AtomicEvent.load MemOrdering.seqCst,
              AtomicEvent.fetchAdd 1 MemOrdering.seqCst]) := by
      unfold Wrapper.Semaphore.try_get
      rw [hraw]
    refine ⟨?_, ?_, ?_, ?_, ?_⟩
    · intro e he
      rw [hraw] at he
      simp at he
    · intro g _
      cases g
      rw [htry]
      exact ⟨rfl, rfl⟩
    · rw [htry, hraw]
    · rw [htry]
    · rw [htry, hraw]

theorem C8_wrapper_try_get_delegates_witness :
    ((Wrapper.Semaphore.new (42 : Nat) 2).raw.try_lock).1
        = Except.ok Raw.SemaphoreGuard.mk ∧
    (((Wrapper.Semaphore.new (42 : Nat) 2).try_get).1
        = Except.ok { _inner := Raw.SemaphoreGuard.mk, data := 42 } ∧
      Wrapper.SemaphoreGuard.deref
          { _inner := Raw.SemaphoreGuard.mk, data := (42 : Nat) } = 42) :=
  ⟨rfl, (C8_wrapper_try_get_delegates (Wrapper.Semaphore.new (42 : Nat) 2)).2.1
    Raw.SemaphoreGuard.mk rfl⟩

/-- C9: for every raw core state and every memory ordering, at_max returns
exactly the comparison count >= max and count returns the current count, both
leaving the state unchanged; a freshly constructed core has count 0 and the
given max, and max is unchanged by try_get and by a guard drop. -/
theorem C9_accessor_contract (s : Raw.Semaphore) (ordering : MemOrdering) (max : Nat) :
    (s.at_max ordering).1 = decide (s.count ≥ s.max) ∧
    (s.at_max ordering).2.1 = s ∧
    (s.countOp ordering).1 = s.count ∧
    (s.countOp ordering).2.1 = s ∧
    (Raw.Semaphore.new max).count = 0 ∧
    (Raw.Semaphore.new max).max = max ∧
    (s.try_get).2.1.max = s.max ∧
    (Raw.SemaphoreGuard.drop s).1.max = s.max := by
  refine ⟨rfl, rfl, rfl, rfl, rfl, rfl, ?_, ?_⟩
  · rw [raw_try_get_eq]
    split <;> rfl
  · rw [rawGuard_drop_eq]

/-- C10: the guard drop performs a wrapping subtraction of 1 on the unsigned
count, which wraps to the maximum usize value if the count is 0 at that
moment; in every reachable state with at least one live guard, the count is at
least 1, so at every drop of an acquired guard the subtraction is exact and no
wraparound occurs. -/
theorem C10_drop_no_underflow :
    (∀ s0 : Raw.Semaphore, s0.count = 0 →
      (Raw.SemaphoreGuard.drop s0).1.count = USIZE - 1) ∧
    (∀ (s : Raw.Semaphore) (g : Nat), Reachable s g → 1 ≤ g →
      1 ≤ s.count ∧ (Raw.SemaphoreGuard.drop s).1.count = s.count - 1) := by
  constructor
  · intro s0 h0
    rw [rawGuard_drop_eq]
    show usizeSub s0.count 1 = USIZE - 1
    rw [h0, usizeSub_zero_one]
  · intro s g hr hg1
    obtain ⟨hc, hg, hm⟩ := reachable_spec hr
    have hc1 : 1 ≤ s.count := by omega
    refine ⟨hc1, ?_⟩
    rw [rawGuard_drop_eq]
    show usizeSub s.count 1 = s.count - 1
    exact usizeSub_one_eq hc1 (by omega)

theorem C10_drop_no_underflow_witness :
    (Raw.SemaphoreGuard.drop { count := 0, max := 3 }).1.count = USIZE - 1 ∧
    (1 ≤ ((Raw.Semaphore.new 3).try_get).2.1.count ∧
      (Raw.SemaphoreGuard.drop ((Raw.Semaphore.new 3).try_get).2.1).1.count
        = ((Raw.Semaphore.new 3).try_get).2.1.count - 1) :=
  ⟨C10_drop_no_underflow.1 { count := 0, max := 3 } rfl,
    C10_drop_no_underflow.2 ((Raw.Semaphore.new 3).try_get).2.1 1
      (Reachable.acquire (Reachable.init 3 (by decide)) rfl) (by decide)⟩
